import Mathlib

/- Shallow embedding of the AirTravelEmission core (src/app.py).
   Python floats are modelled as real numbers; the pandas DataFrame is
   modelled as a list of rows; the airport dict is an association list. -/

open Real

/- Airport reference table: app.py lines 40-51.  An entry of the dict
   `airport_data` is a record of latitude, longitude and (uppercased)
   ISO country, keyed by the uppercased IATA code. -/
structure AirportRec where
  lat : ℝ
  lon : ℝ
  country : String

def AirportTable : Type := List (String × AirportRec)

/- dict.get / `in` on `airport_data`. -/
def airportGet (tbl : AirportTable) (code : String) : Option AirportRec :=
  ((List.find? (fun p => p.1 == code)) tbl).map (fun p => p.2)

/- Emission factors, app.py lines 36-37. -/
def DOMESTIC_FACTOR : ℝ := 0.03350 + 0.27257

def INTERNATIONAL_FACTOR : ℝ := 0.02162 + 0.17580

/- Python `s.split("-")` with a one-character separator, on char lists.
   "A-B-C" gives ["A","B","C"]; a string without a dash gives itself as
   the single piece; empty pieces are kept, as in Python. -/
def splitDash : List Char → List (List Char)
  | [] => [[]]
  | c :: rest =>
    match splitDash rest with
    | [] => [[]]
    | grp :: grps => if c = '-' then [] :: grp :: grps else (c :: grp) :: grps

/- Python `s.strip()` (whitespace at both ends). -/
def pyStrip (cs : List Char) : List Char :=
  ((cs.dropWhile Char.isWhitespace).reverse.dropWhile Char.isWhitespace).reverse

/- Python `s.strip().upper()` as applied to each code. -/
def normCode (s : String) : String :=
  String.mk ((pyStrip s.data).map Char.toUpper)

/- app.py line 119: codes = [c.strip().upper() for c in row["route"].split("-")]. -/
def routeCodes (route : String) : List String :=
  (splitDash route.data).map (fun cs => normCode (String.mk cs))

/- Python `s.upper()` (used at app.py line 164). -/
def upperStr (s : String) : String := String.mk (s.data.map Char.toUpper)

/- app.py line 132: domestic_leg = (a1["country"] == "IN") and (a2["country"] == "IN"). -/
def legDom (a1 a2 : AirportRec) : Bool := a1.country == "IN" && a2.country == "IN"

noncomputable section

/- math.radians, used by `haversine`. -/
def radians (deg : ℝ) : ℝ := deg * π / 180

/- Python math.atan2 (signed-zero behaviour of floats is not modelled;
   the calls made by `haversine` always have a non-negative second
   argument). -/
def atan2 (y x : ℝ) : ℝ :=
  if 0 < x then Real.arctan (y / x)
  else if x < 0 then
    (if 0 ≤ y then Real.arctan (y / x) + π else Real.arctan (y / x) - π)
  else
    (if 0 < y then π / 2 else if y < 0 then -(π / 2) else 0)

/- app.py lines 54-61. -/
def haversine (lat1 lon1 lat2 lon2 : ℝ) : ℝ :=
  let R : ℝ := 6371
  let phi1 := radians lat1
  let phi2 := radians lat2
  let dphi := radians (lat2 - lat1)
  let dlam := radians (lon2 - lon1)
  let a := Real.sin (dphi / 2) ^ 2 + Real.cos phi1 * Real.cos phi2 * Real.sin (dlam / 2) ^ 2
  let c := 2 * atan2 (Real.sqrt a) (Real.sqrt (1 - a))
  R * c

/- The loop body of compute_route_metrics, app.py lines 124-137.
   The accumulator is (total_km, total_em_kg, all_domestic); an
   unknown IATA code aborts the whole route with `none`
   (pd.Series([None, None, None]) in the source). -/
def legsLoop (tbl : AirportTable) : (ℝ × ℝ × Bool) → List (String × String) → Option (ℝ × ℝ × Bool)
  | acc, [] => some acc
  | acc, (origin, dest) :: rest =>
    match airportGet tbl origin, airportGet tbl dest with
    | some a1, some a2 =>
      legsLoop tbl
        (acc.1 + haversine a1.lat a1.lon a2.lat a2.lon,
         acc.2.1 + haversine a1.lat a1.lon a2.lat a2.lon *
           (if legDom a1 a2 then DOMESTIC_FACTOR else INTERNATIONAL_FACTOR),
         acc.2.2 && legDom a1 a2)
        rest
    | _, _ => none

/- app.py lines 113-141 on an explicit list of codes: the legs are
   zip(codes, codes[1:]), the result is
   (total_km, travel_type, total_em_kg / 1000). -/
def routeMetricsOfCodes (tbl : AirportTable) (codes : List String) : Option (ℝ × String × ℝ) :=
  match legsLoop tbl (0, 0, true) (codes.zip codes.tail) with
  | none => none
  | some (totalKm, totalEmKg, allDom) =>
    some (totalKm, if allDom then "Domestic" else "International", totalEmKg / 1000)

/- A row of the {route, trips} batch shape (after the trips column has
   been prepared, app.py lines 106-111). -/
structure RouteRow where
  route : String
  trips : Int

/- app.py lines 113-141: the row function reads only row["route"];
   the trips field of the row is not consulted. -/
def compute_route_metrics (tbl : AirportTable) (row : RouteRow) : Option (ℝ × String × ℝ) :=
  routeMetricsOfCodes tbl (routeCodes row.route)

/- A row of the {from, to, trips} batch shape. -/
structure FTRow where
  fromCode : String
  toCode : String
  trips : Int

/- app.py lines 151-159. -/
def compute_metrics (tbl : AirportTable) (row : FTRow) : Option (ℝ × String × ℝ) :=
  let f := normCode row.fromCode
  let t := normCode row.toCode
  match airportGet tbl f, airportGet tbl t with
  | some a1, some a2 =>
    let dist := haversine a1.lat a1.lon a2.lat a2.lon
    let tt : String := if legDom a1 a2 then "Domestic" else "International"
    some (dist, tt,
      dist * (if tt = "Domestic" then DOMESTIC_FACTOR else INTERNATIONAL_FACTOR) * (row.trips : ℝ) / 1000)
  | _, _ => none

/- Outcome of the single-query path, app.py lines 80-94:
   a warning for blank input, an error naming the unknown codes, or the
   computed (distance, travel_type, emissions-in-kg). -/
inductive SingleResult where
  | incomplete : SingleResult
  | unknownCodes : List String → SingleResult
  | ok : ℝ → String → ℝ → SingleResult

/- app.py lines 76-94.  The inputs are stripped and uppercased at the
   text boxes (lines 76-78); `not from_code` is emptiness of the
   stripped string; the missing list is
   [c for c in (from_code, to_code) if c not in airport_data]. -/
def singleQuery (tbl : AirportTable) (fromInput toInput : String) : SingleResult :=
  let f := normCode fromInput
  let t := normCode toInput
  if f = "" ∨ t = "" then SingleResult.incomplete
  else
    match airportGet tbl f, airportGet tbl t with
    | some a1, some a2 =>
      let dist := haversine a1.lat a1.lon a2.lat a2.lon
      let tt : String := if legDom a1 a2 then "Domestic" else "International"
      SingleResult.ok dist tt
        (dist * (if tt = "Domestic" then DOMESTIC_FACTOR else INTERNATIONAL_FACTOR))
    | _, _ =>
      SingleResult.unknownCodes ([f, t].filter (fun c => (airportGet tbl c).isNone))

/- A processed batch row: the input row augmented with the computed
   (distance_km, travel_type, emissions(tCO2e)), or `none` for the
   whole triple when the row failed (app.py lines 127 / 159). -/
structure PRow where
  route : String
  trips : Int
  res : Option (ℝ × String × ℝ)

/- app.py line 144: df.apply(compute_route_metrics, axis=1). -/
def processRouteRows (tbl : AirportTable) (rows : List RouteRow) : List PRow :=
  rows.map (fun r => ⟨r.route, r.trips, compute_route_metrics tbl r⟩)

/- app.py lines 161-164: df.apply(compute_metrics) plus the synthesised
   route column from["from"].upper() + "→" + ["to"].upper(). -/
def processFTRows (tbl : AirportTable) (rows : List FTRow) : List PRow :=
  rows.map (fun r => ⟨upperStr r.fromCode ++ "→" ++ upperStr r.toCode, r.trips, compute_metrics tbl r⟩)

end

/- An Excel cell of the `trips` column: empty (NaN after read), a
   number, or non-numeric text. -/
inductive Cell where
  | blank : Cell
  | num : Int → Cell
  | txt : String → Cell

/- pandas Series.fillna(1): only the NaN cells are replaced. -/
def fillna1 : Cell → Cell
  | Cell.blank => Cell.num 1
  | c => c

/- pandas .astype(int) on one cell: numbers convert, anything else
   raises (ValueError / TypeError), which the source's try/except turns
   into rejecting the whole upload. -/
def astypeInt : Cell → Except String Int
  | Cell.num n => Except.ok n
  | Cell.blank => Except.error "cannot convert NaN to int"
  | Cell.txt s => Except.error ("invalid literal for int: " ++ s)

/- app.py lines 107-111 (route shape): if the trips column exists it is
   fillna(1).astype(int); otherwise the column is the constant 1. -/
def tripsColRoute (hasCol : Bool) (col : List Cell) (n : Nat) : Except String (List Int) :=
  if hasCol then col.mapM (fun c => astypeInt (fillna1 c))
  else Except.ok (List.replicate n 1)

/- app.py line 149 (from/to shape): df.get('trips', 1).fillna(1).astype(int).
   When the column exists this matches the route shape; when it is
   absent, df.get returns the plain int 1 and `.fillna` on an int raises
   AttributeError, so the whole upload fails. -/
def tripsColFromTo (hasCol : Bool) (col : List Cell) (n : Nat) : Except String (List Int) :=
  if hasCol then col.mapM (fun c => astypeInt (fillna1 c))
  else Except.error "AttributeError: int object has no attribute fillna"

noncomputable section

/- pandas Series.sum() over a column that may hold nulls: null entries
   are skipped (skipna), the empty sum is 0. -/
def pandasSum : List (Option ℝ) → ℝ
  | [] => 0
  | none :: rest => pandasSum rest
  | some v :: rest => v + pandasSum rest

/- The emissions(tCO2e) column of a processed row. -/
def emOf (r : PRow) : Option ℝ := r.res.map (fun x => x.2.2)

/- The distance_km column of a processed row. -/
def distOf (r : PRow) : Option ℝ := r.res.map (fun x => x.1)

/- The travel_type column of a processed row. -/
def ttOf (r : PRow) : Option String := r.res.map (fun x => x.2.1)

/- app.py line 167: df['emissions(tCO2e)'].sum(). -/
def total_em (rows : List PRow) : ℝ := pandasSum (rows.map emOf)

/- app.py line 168: df.loc[df['travel_type']=='Domestic','emissions(tCO2e)'].sum(). -/
def dom_em (rows : List PRow) : ℝ :=
  pandasSum ((rows.filter (fun r => ttOf r = some "Domestic")).map emOf)

/- app.py line 169. -/
def int_em (rows : List PRow) : ℝ :=
  pandasSum ((rows.filter (fun r => ttOf r = some "International")).map emOf)

/- app.py line 170: df['distance_km'].sum(). -/
def total_dist (rows : List PRow) : ℝ := pandasSum (rows.map distOf)

/- app.py line 171. -/
def dom_dist (rows : List PRow) : ℝ :=
  pandasSum ((rows.filter (fun r => ttOf r = some "Domestic")).map distOf)

/- app.py line 172. -/
def int_dist (rows : List PRow) : ℝ :=
  pandasSum ((rows.filter (fun r => ttOf r = some "International")).map distOf)

/- pandas Series.idxmax on the emissions column: position of the first
   occurrence of the maximum among the non-null entries, none when every
   entry is null.  The accumulator keeps (best index, best value) and is
   replaced only on a strictly larger value. -/
def idxmaxGo : List (Option ℝ) → Nat → Option (Nat × ℝ) → Option Nat
  | [], _, best => best.map (fun p => p.1)
  | none :: rest, i, best => idxmaxGo rest (i + 1) best
  | some v :: rest, i, none => idxmaxGo rest (i + 1) (some (i, v))
  | some v :: rest, i, some (b, m) =>
    if m < v then idxmaxGo rest (i + 1) (some (i, v)) else idxmaxGo rest (i + 1) (some (b, m))

def idxmax (xs : List (Option ℝ)) : Option Nat := idxmaxGo xs 0 none

/- app.py lines 260-261: max_row = df.loc[df['emissions(tCO2e)'].idxmax()];
   insight_route = max_row['route']. -/
def insightRoute (rows : List PRow) : Option String :=
  (idxmax (rows.map emOf)).bind (fun i => (rows.get? i).map (fun r => r.route))

/- Distinct route strings in first-occurrence order. -/
def firstKeysGo : List String → List String → List String
  | [], _ => []
  | r :: rest, seen =>
    if r ∈ seen then firstKeysGo rest seen else r :: firstKeysGo rest (r :: seen)

/- Total emissions of every row carrying a given route string
   (null rows contribute nothing). -/
def routeTotal (rows : List PRow) (key : String) : ℝ :=
  pandasSum ((rows.filter (fun r => r.route = key)).map emOf)

/- Maximum by value, keeping the earliest key on ties. -/
def argmaxFirst : List (String × ℝ) → Option (String × ℝ)
  | [] => none
  | (k, v) :: rest =>
    match argmaxFirst rest with
    | none => some (k, v)
    | some (k2, v2) => if v < v2 then some (k2, v2) else some (k, v)

/- Modelled from the spec: the claimed "top polluting route" selection,
   "the single route with maximum total emissions, where total emissions
   for a route aggregates all rows carrying the same route string, ties
   broken by first occurrence in input order".  Used to compare the
   source's insight highlight against the specified behaviour. -/
def specTopRoute (rows : List PRow) : Option String :=
  (argmaxFirst ((firstKeysGo (rows.map (fun r => r.route)) []).map
    (fun k => (k, routeTotal rows k)))).map (fun p => p.1)

end


/- Concrete tables used by closed theorems. -/

/- DEL and BOM, app.py §8 example data. -/
def tblW : AirportTable := [("DEL", ⟨28.5665, 77.1031, "IN"⟩), ("BOM", ⟨19.0887, 72.8679, "IN"⟩)]

/- Two coincident home-country airports. -/
def tblP : AirportTable := [("P", ⟨0, 0, "IN"⟩), ("Q", ⟨0, 0, "IN"⟩)]

/- Three equatorial airports at longitudes 0, 90 and 180, so that the
   pairwise haversine distances are exactly 6371*(pi/2) and 6371*pi. -/
def tblEq : AirportTable := [("A", ⟨0, 0, "US"⟩), ("B", ⟨0, 90, "US"⟩), ("C", ⟨0, 180, "US"⟩)]

/- A leg of the route list whose endpoints both resolve in the table to
   home-country ("IN") airports. -/
def legResolvedDomestic (tbl : AirportTable) (p : String × String) : Prop :=
  ∃ a1 a2, airportGet tbl p.1 = some a1 ∧ airportGet tbl p.2 = some a2 ∧
    a1.country = "IN" ∧ a2.country = "IN"

/- ------------------------------------------------------------------ -/
/- Helper lemmas about atan2 and haversine.                           -/
/- ------------------------------------------------------------------ -/

theorem arctan_nonneg_of {z : ℝ} (hz : 0 ≤ z) : 0 ≤ Real.arctan z :=
  (Real.arctan_strictMono.monotone hz).trans_eq' Real.arctan_zero.symm

theorem atan2_nonneg {y x : ℝ} (hy : 0 ≤ y) : 0 ≤ atan2 y x := by
  unfold atan2
  have hpi := Real.pi_pos
  split_ifs with h1 h2 h3 h4
  · exact arctan_nonneg_of (by positivity)
  · have := Real.neg_pi_div_two_lt_arctan (y / x)
    linarith
  · linarith
  · linarith
  · exact le_refl _

theorem atan2_eq_zero_imp {y x : ℝ} (hy : 0 ≤ y) (hx : 0 ≤ x)
    (h : atan2 y x = 0) : y = 0 := by
  unfold atan2 at h
  have hpi := Real.pi_pos
  split_ifs at h with h1 h2 h3 h4
  · rcases div_eq_zero_iff.mp (Real.arctan_eq_zero_iff.mp h) with h0 | h0
    · exact h0
    · exact absurd h0 (ne_of_gt h1)
  · linarith
  · linarith
  · linarith
  · linarith

theorem haversine_nonneg (lat1 lon1 lat2 lon2 : ℝ) : 0 ≤ haversine lat1 lon1 lat2 lon2 := by
  unfold haversine
  have h := atan2_nonneg
    (x := Real.sqrt (1 - (Real.sin (radians (lat2 - lat1) / 2) ^ 2 +
      Real.cos (radians lat1) * Real.cos (radians lat2) * Real.sin (radians (lon2 - lon1) / 2) ^ 2)))
    (Real.sqrt_nonneg (Real.sin (radians (lat2 - lat1) / 2) ^ 2 +
      Real.cos (radians lat1) * Real.cos (radians lat2) * Real.sin (radians (lon2 - lon1) / 2) ^ 2))
  linarith

theorem haversine_self (lat lon : ℝ) : haversine lat lon lat lon = 0 := by
  simp only [haversine, radians]
  simp [sub_self, Real.sqrt_one, atan2, Real.arctan_zero]

theorem hav_0_0_0_90 : haversine 0 0 0 90 = 6371 * (π / 2) := by
  simp only [haversine, radians]
  have h1 : ((0 : ℝ) - 0) * π / 180 / 2 = 0 := by ring
  have h2 : ((90 : ℝ) - 0) * π / 180 / 2 = π / 4 := by ring
  have h3 : ((0 : ℝ)) * π / 180 = 0 := by ring
  rw [h1, h2, h3]
  have ha : Real.sin 0 ^ 2 + Real.cos 0 * Real.cos 0 * Real.sin (π / 4) ^ 2 = 1 / 2 := by
    rw [Real.sin_zero, Real.cos_zero, Real.sin_pi_div_four]
    rw [div_pow, Real.sq_sqrt (by norm_num : (0:ℝ) ≤ 2)]
    norm_num
  rw [ha]
  have hb : (1 : ℝ) - 1 / 2 = 1 / 2 := by norm_num
  rw [hb]
  have hs : (0 : ℝ) < Real.sqrt (1 / 2) := Real.sqrt_pos.mpr (by norm_num)
  unfold atan2
  rw [if_pos hs, div_self (ne_of_gt hs), Real.arctan_one]
  ring

theorem hav_0_0_0_180 : haversine 0 0 0 180 = 6371 * π := by
  simp only [haversine, radians]
  have h1 : ((0 : ℝ) - 0) * π / 180 / 2 = 0 := by ring
  have h2 : ((180 : ℝ) - 0) * π / 180 / 2 = π / 2 := by ring
  have h3 : ((0 : ℝ)) * π / 180 = 0 := by ring
  rw [h1, h2, h3]
  have ha : Real.sin 0 ^ 2 + Real.cos 0 * Real.cos 0 * Real.sin (π / 2) ^ 2 = 1 := by
    rw [Real.sin_zero, Real.cos_zero, Real.sin_pi_div_two]; norm_num
  rw [ha]
  have hb : (1 : ℝ) - 1 = 0 := by norm_num
  rw [hb, Real.sqrt_zero, Real.sqrt_one]
  unfold atan2
  have hpi := Real.pi_pos
  rw [if_neg (lt_irrefl 0), if_neg (lt_irrefl 0), if_pos one_pos]
  ring

theorem hav_antipodal_lon : haversine 0 (-180) 0 180 = 0 := by
  simp only [haversine, radians]
  have h1 : ((0 : ℝ) - 0) * π / 180 / 2 = 0 := by ring
  have h2 : ((180 : ℝ) - -180) * π / 180 / 2 = π := by ring
  have h3 : ((0 : ℝ)) * π / 180 = 0 := by ring
  rw [h1, h2, h3]
  have ha : Real.sin 0 ^ 2 + Real.cos 0 * Real.cos 0 * Real.sin π ^ 2 = 0 := by
    rw [Real.sin_zero, Real.cos_zero, Real.sin_pi]; norm_num
  rw [ha]
  have hb : (1 : ℝ) - 0 = 1 := by norm_num
  rw [hb, Real.sqrt_zero, Real.sqrt_one]
  unfold atan2
  rw [if_pos one_pos]
  rw [zero_div, Real.arctan_zero]
  ring

theorem haversine_zero_lat_eq {lat1 lon1 lat2 lon2 : ℝ}
    (ha1 : -90 ≤ lat1) (hb1 : lat1 ≤ 90) (ha2 : -90 ≤ lat2) (hb2 : lat2 ≤ 90)
    (h : haversine lat1 lon1 lat2 lon2 = 0) : lat1 = lat2 := by
  have hpi := Real.pi_pos
  simp only [haversine, radians] at h
  set A := Real.sin ((lat2 - lat1) * π / 180 / 2) ^ 2 +
    Real.cos (lat1 * π / 180) * Real.cos (lat2 * π / 180) * Real.sin ((lon2 - lon1) * π / 180 / 2) ^ 2 with hA
  have hc : atan2 (Real.sqrt A) (Real.sqrt (1 - A)) = 0 := by
    have h6 : (6371 : ℝ) * (2 * atan2 (Real.sqrt A) (Real.sqrt (1 - A))) = 0 := h
    linarith [h6]
  have hy := atan2_eq_zero_imp (Real.sqrt_nonneg A) (Real.sqrt_nonneg (1 - A)) hc
  have hAle : A ≤ 0 := Real.sqrt_eq_zero'.mp hy
  have hcos1 : 0 ≤ Real.cos (lat1 * π / 180) := by
    apply Real.cos_nonneg_of_mem_Icc
    constructor
    · nlinarith
    · nlinarith
  have hcos2 : 0 ≤ Real.cos (lat2 * π / 180) := by
    apply Real.cos_nonneg_of_mem_Icc
    constructor
    · nlinarith
    · nlinarith
  have hterm2 : 0 ≤ Real.cos (lat1 * π / 180) * Real.cos (lat2 * π / 180) *
      Real.sin ((lon2 - lon1) * π / 180 / 2) ^ 2 := by positivity
  have hterm1 : Real.sin ((lat2 - lat1) * π / 180 / 2) ^ 2 ≤ 0 := by
    rw [hA] at hAle
    nlinarith [hterm2]
  have hsin0 : Real.sin ((lat2 - lat1) * π / 180 / 2) = 0 := by
    nlinarith [sq_nonneg (Real.sin ((lat2 - lat1) * π / 180 / 2))]
  have harg : (lat2 - lat1) * π / 180 / 2 = 0 := by
    rw [Real.sin_eq_zero_iff_of_lt_of_lt (by nlinarith) (by nlinarith)] at hsin0
    exact hsin0
  have hz : (lat2 - lat1) * π = 0 := by linarith
  rcases mul_eq_zero.mp hz with h0 | h0
  · linarith [sub_eq_zero.mp h0]
  · exact absurd h0 Real.pi_ne_zero

/- ------------------------------------------------------------------ -/
/- Helper lemmas about the route loop.                                -/
/- ------------------------------------------------------------------ -/

theorem legsLoop_none_of_bad (tbl : AirportTable) :
    ∀ (legs : List (String × String)) (acc : ℝ × ℝ × Bool),
      (∃ p ∈ legs, airportGet tbl p.1 = none ∨ airportGet tbl p.2 = none) →
      legsLoop tbl acc legs = none := by
  intro legs
  induction legs with
  | nil =>
    rintro acc ⟨p, hp, _⟩
    exact absurd hp (List.not_mem_nil p)
  | cons q rest ih =>
    rintro acc ⟨p, hp, hbad⟩
    obtain ⟨o, d⟩ := q
    cases h1 : airportGet tbl o with
    | none => simp [legsLoop, h1]
    | some a1 =>
      cases h2 : airportGet tbl d with
      | none => simp [legsLoop, h1, h2]
      | some a2 =>
        rcases List.mem_cons.mp hp with heq | hmem
        · subst heq
          simp only at hbad
          rcases hbad with hb | hb
          · rw [h1] at hb; exact absurd hb (by simp)
          · rw [h2] at hb; exact absurd hb (by simp)
        · simp only [legsLoop, h1, h2]
          exact ih _ ⟨p, hmem, hbad⟩

theorem mem_zip_of_mem (c : String) :
    ∀ (codes : List String), 2 ≤ codes.length → c ∈ codes →
      ∃ p ∈ codes.zip codes.tail, p.1 = c ∨ p.2 = c := by
  intro codes
  induction codes with
  | nil => intro h; simp at h
  | cons a rest ih =>
    intro hlen hc
    cases rest with
    | nil => simp at hlen
    | cons b rest2 =>
      rcases List.mem_cons.mp hc with rfl | hc2
      · exact ⟨(c, b), by simp [List.zip_cons_cons], Or.inl rfl⟩
      · cases rest2 with
        | nil =>
          have hcb : c = b := by simpa using hc2
          exact ⟨(a, b), by simp [List.zip_cons_cons], Or.inr hcb.symm⟩
        | cons e rest3 =>
          obtain ⟨p, hpmem, hpc⟩ := ih (by simp) hc2
          refine ⟨p, ?_, hpc⟩
          simp only [List.tail_cons] at hpmem ⊢
          rw [List.zip_cons_cons]
          exact List.mem_cons.mpr (Or.inr hpmem)

theorem legsLoop_allDom (tbl : AirportTable) :
    ∀ (legs : List (String × String)) (acc : ℝ × ℝ × Bool) (out : ℝ × ℝ × Bool),
      legsLoop tbl acc legs = some out →
      (out.2.2 = true ↔ acc.2.2 = true ∧ ∀ p ∈ legs, legResolvedDomestic tbl p) := by
  intro legs
  induction legs with
  | nil =>
    intro acc out h
    simp only [legsLoop] at h
    rw [← Option.some_inj.mp h]
    simp
  | cons q rest ih =>
    intro acc out h
    obtain ⟨o, d⟩ := q
    cases h1 : airportGet tbl o with
    | none => rw [legsLoop, h1] at h; simp at h
    | some a1 =>
      cases h2 : airportGet tbl d with
      | none => rw [legsLoop, h1, h2] at h; simp at h
      | some a2 =>
        rw [legsLoop, h1, h2] at h
        have hih := ih _ _ h
        rw [List.forall_mem_cons]
        simp only [Prod.snd] at hih
        rw [hih]
        have hleg : (legDom a1 a2 = true) ↔ legResolvedDomestic tbl (o, d) := by
          constructor
          · intro hl
            simp only [legDom, Bool.and_eq_true, beq_iff_eq] at hl
            exact ⟨a1, a2, h1, h2, hl.1, hl.2⟩
          · rintro ⟨b1, b2, hb1, hb2, hc1, hc2⟩
            rw [h1] at hb1
            rw [h2] at hb2
            cases Option.some_inj.mp hb1
            cases Option.some_inj.mp hb2
            simp only [legDom, Bool.and_eq_true, beq_iff_eq]
            exact ⟨hc1, hc2⟩
        rw [Bool.and_eq_true]
        rw [hleg]
        tauto

/- ------------------------------------------------------------------ -/
/- Helper lemmas about the aggregation machinery.                     -/
/- ------------------------------------------------------------------ -/

theorem pandasSum_eq_sum_filterMap :
    ∀ xs : List (Option ℝ), pandasSum xs = (xs.filterMap id).sum := by
  intro xs
  induction xs with
  | nil => simp [pandasSum]
  | cons x rest ih =>
    cases x with
    | none => simp [pandasSum, ih]
    | some v => simp [pandasSum, ih]

theorem pandasSum_append (xs ys : List (Option ℝ)) :
    pandasSum (xs ++ ys) = pandasSum xs + pandasSum ys := by
  induction xs with
  | nil => simp [pandasSum]
  | cons x rest ih =>
    cases x with
    | none => simpa [pandasSum] using ih
    | some v => simp [pandasSum, ih]; ring

theorem pandasSum_map_eq (f : PRow → Option ℝ) :
    ∀ rows : List PRow, pandasSum (rows.map f) = (rows.filterMap f).sum := by
  intro rows
  rw [pandasSum_eq_sum_filterMap, List.filterMap_map]
  rfl

theorem filter_isSome_filterMap (f : PRow → Option ℝ)
    (hf : ∀ r : PRow, r.res = none → f r = none) :
    ∀ rows : List PRow,
      (rows.filter (fun r => r.res.isSome)).filterMap f = rows.filterMap f := by
  intro rows
  induction rows with
  | nil => rfl
  | cons r rest ih =>
    cases hr : r.res with
    | none => simp [List.filter, List.filterMap, hr, hf r hr, ih]
    | some v => simp [List.filter, List.filterMap, hr, ih]

theorem idxmaxGo_spec :
    ∀ (xs : List (Option ℝ)) (i : Nat) (best : Option (Nat × ℝ)) (k : Nat),
      idxmaxGo xs i best = some k →
      (best = none →
        ∃ j v, k = i + j ∧ xs.get? j = some (some v)
          ∧ (∀ l w, xs.get? l = some (some w) → w ≤ v)
          ∧ (∀ l, l < j → ∀ w, xs.get? l = some (some w) → w < v))
    ∧ (∀ b m, best = some (b, m) →
        ((k = b ∧ ∀ l w, xs.get? l = some (some w) → w ≤ m)
        ∨ (∃ j v, k = i + j ∧ xs.get? j = some (some v) ∧ m < v
            ∧ (∀ l w, xs.get? l = some (some w) → w ≤ v)
            ∧ (∀ l, l < j → ∀ w, xs.get? l = some (some w) → w < v)))) := by
  intro xs
  induction xs with
  | nil =>
    intro i best k h
    constructor
    · intro hb
      subst hb
      simp [idxmaxGo] at h
    · intro b m hb
      subst hb
      simp only [idxmaxGo, Option.map_some'] at h
      left
      refine ⟨(Option.some_inj.mp h).symm, ?_⟩
      intro l w hl
      simp at hl
  | cons x rest ih =>
    intro i best k h
    cases x with
    | none =>
      simp only [idxmaxGo] at h
      constructor
      · intro hb
        subst hb
        obtain ⟨j, v, hk, hj, hbound, hstrict⟩ := (ih (i+1) none k h).1 rfl
        refine ⟨j+1, v, by omega, by simpa using hj, ?_, ?_⟩
        · intro l w hl
          cases l with
          | zero => simp at hl
          | succ l2 => exact hbound l2 w (by simpa using hl)
        · intro l hlj w hl
          cases l with
          | zero => simp at hl
          | succ l2 => exact hstrict l2 (by omega) w (by simpa using hl)
      · intro b m hb
        subst hb
        rcases (ih (i+1) (some (b, m)) k h).2 b m rfl with ⟨hk, hbound⟩ |
          ⟨j, v, hk, hj, hmv, hbound, hstrict⟩
        · left
          refine ⟨hk, ?_⟩
          intro l w hl
          cases l with
          | zero => simp at hl
          | succ l2 => exact hbound l2 w (by simpa using hl)
        · right
          refine ⟨j+1, v, by omega, by simpa using hj, hmv, ?_, ?_⟩
          · intro l w hl
            cases l with
            | zero => simp at hl
            | succ l2 => exact hbound l2 w (by simpa using hl)
          · intro l hlj w hl
            cases l with
            | zero => simp at hl
            | succ l2 => exact hstrict l2 (by omega) w (by simpa using hl)
    | some v0 =>
      cases best with
      | none =>
        simp only [idxmaxGo] at h
        constructor
        · intro _
          rcases (ih (i+1) (some (i, v0)) k h).2 i v0 rfl with ⟨hk, hbound⟩ |
            ⟨j, v, hk, hj, hmv, hbound, hstrict⟩
          · refine ⟨0, v0, by omega, by simp, ?_, ?_⟩
            · intro l w hl
              cases l with
              | zero =>
                have hw : v0 = w := by simpa using hl
                exact hw.ge
              | succ l2 => exact hbound l2 w (by simpa using hl)
            · intro l hl w hl2
              exact absurd hl (Nat.not_lt_zero l)
          · refine ⟨j+1, v, by omega, by simpa using hj, ?_, ?_⟩
            · intro l w hl
              cases l with
              | zero =>
                have hw : v0 = w := by simpa using hl
                exact hw ▸ hmv.le
              | succ l2 => exact hbound l2 w (by simpa using hl)
            · intro l hlj w hl
              cases l with
              | zero =>
                have hw : v0 = w := by simpa using hl
                exact hw ▸ hmv
              | succ l2 => exact hstrict l2 (by omega) w (by simpa using hl)
        · intro b m hb
          exact absurd hb (by simp)
      | some bm =>
        obtain ⟨b, m⟩ := bm
        simp only [idxmaxGo] at h
        constructor
        · intro hb
          exact absurd hb (by simp)
        · intro b2 m2 hb
          obtain ⟨rfl, rfl⟩ : b = b2 ∧ m = m2 := by simpa using hb
          by_cases hc : m < v0
          · rw [if_pos hc] at h
            rcases (ih (i+1) (some (i, v0)) k h).2 i v0 rfl with ⟨hk, hbound⟩ |
              ⟨j, v, hk, hj, hmv, hbound, hstrict⟩
            · right
              refine ⟨0, v0, by omega, by simp, hc, ?_, ?_⟩
              · intro l w hl
                cases l with
                | zero =>
                  have hw : v0 = w := by simpa using hl
                  exact hw.ge
                | succ l2 => exact hbound l2 w (by simpa using hl)
              · intro l hl w hl2
                exact absurd hl (Nat.not_lt_zero l)
            · right
              refine ⟨j+1, v, by omega, by simpa using hj, lt_trans hc hmv, ?_, ?_⟩
              · intro l w hl
                cases l with
                | zero =>
                  have hw : v0 = w := by simpa using hl
                  exact hw ▸ hmv.le
                | succ l2 => exact hbound l2 w (by simpa using hl)
              · intro l hlj w hl
                cases l with
                | zero =>
                  have hw : v0 = w := by simpa using hl
                  exact hw ▸ hmv
                | succ l2 => exact hstrict l2 (by omega) w (by simpa using hl)
          · rw [if_neg hc] at h
            push_neg at hc
            rcases (ih (i+1) (some (b, m)) k h).2 b m rfl with ⟨hk, hbound⟩ |
              ⟨j, v, hk, hj, hmv, hbound, hstrict⟩
            · left
              refine ⟨hk, ?_⟩
              intro l w hl
              cases l with
              | zero =>
                have hw : v0 = w := by simpa using hl
                exact hw ▸ hc
              | succ l2 => exact hbound l2 w (by simpa using hl)
            · right
              refine ⟨j+1, v, by omega, by simpa using hj, hmv, ?_, ?_⟩
              · intro l w hl
                cases l with
                | zero =>
                  have hw : v0 = w := by simpa using hl
                  exact hw ▸ (lt_of_le_of_lt hc hmv).le
                | succ l2 => exact hbound l2 w (by simpa using hl)
              · intro l hlj w hl
                cases l with
                | zero =>
                  have hw : v0 = w := by simpa using hl
                  exact hw ▸ lt_of_le_of_lt hc hmv
                | succ l2 => exact hstrict l2 (by omega) w (by simpa using hl)


/-- Claim C7: for every pair of coordinate points, the haversine distance is
symmetric: haversine(lat1,lon1,lat2,lon2) == haversine(lat2,lon2,lat1,lon1). -/
theorem claim_C7_haversine_symmetric (lat1 lon1 lat2 lon2 : ℝ) :
    haversine lat1 lon1 lat2 lon2 = haversine lat2 lon2 lat1 lon1 := by
  simp only [haversine, radians]
  have key : ∀ x y : ℝ,
      Real.sin ((x - y) * π / 180 / 2) ^ 2 = Real.sin ((y - x) * π / 180 / 2) ^ 2 := by
    intro x y
    have h : (x - y) * π / 180 / 2 = -((y - x) * π / 180 / 2) := by ring
    rw [h, Real.sin_neg]
    ring
  rw [key lat2 lat1, key lon2 lon1,
    mul_comm (Real.cos (lat1 * π / 180)) (Real.cos (lat2 * π / 180))]

/-- Claim C6, counterexample: the claim says haversine is zero only for
identical coordinate pairs, but the in-range points (0,-180) and (0,180)
are distinct coordinate pairs with haversine distance exactly 0 (their
longitudes differ by 360 degrees). -/
theorem claim_C6_cex :
    haversine 0 (-180) 0 180 = 0
    ∧ ((0 : ℝ), (-180 : ℝ)) ≠ ((0 : ℝ), (180 : ℝ))
    ∧ (-90 : ℝ) ≤ 0 ∧ (0 : ℝ) ≤ 90
    ∧ (-180 : ℝ) ≤ -180 ∧ (-180 : ℝ) ≤ 180 ∧ (-180 : ℝ) ≤ 180 ∧ (180 : ℝ) ≤ 180 := by
  refine ⟨hav_antipodal_lon, ?_, by norm_num, by norm_num, by norm_num, by norm_num,
    by norm_num, by norm_num⟩
  intro h
  have : (-180 : ℝ) = 180 := congrArg Prod.snd h
  norm_num at this

/-- Claim C6, amended: for in-range coordinates, haversine is non-negative,
is exactly 0 on identical points, and haversine = 0 forces the latitudes to
be equal; zero distance does not force the coordinate pairs to be identical
(see the counterexample). -/
theorem claim_C6_amended (lat1 lon1 lat2 lon2 : ℝ)
    (h1 : -90 ≤ lat1) (h2 : lat1 ≤ 90) (h3 : -90 ≤ lat2) (h4 : lat2 ≤ 90)
    (h5 : -180 ≤ lon1) (h6 : lon1 ≤ 180) (h7 : -180 ≤ lon2) (h8 : lon2 ≤ 180) :
    0 ≤ haversine lat1 lon1 lat2 lon2
    ∧ haversine lat1 lon1 lat1 lon1 = 0
    ∧ (haversine lat1 lon1 lat2 lon2 = 0 → lat1 = lat2) :=
  ⟨haversine_nonneg lat1 lon1 lat2 lon2, haversine_self lat1 lon1,
    fun h => haversine_zero_lat_eq h1 h2 h3 h4 h⟩

/-- Witness for the amended claim C6 at the concrete points (0,0) and (0,90). -/
theorem claim_C6_amended_witness :
    0 ≤ haversine 0 0 0 90
    ∧ haversine 0 0 0 0 = 0
    ∧ (haversine 0 0 0 90 = 0 → (0 : ℝ) = 0) :=
  claim_C6_amended 0 0 0 90 (by norm_num) (by norm_num) (by norm_num) (by norm_num)
    (by norm_num) (by norm_num) (by norm_num) (by norm_num)

/-- Claim C3: for a multi-leg route row (at least two codes), if any code of
the route fails to resolve in the airport table, compute_route_metrics
returns the all-null row result, whatever the other legs resolve to. -/
theorem claim_C3_unknown_code_kills_row (tbl : AirportTable) (row : RouteRow)
    (hlen : 2 ≤ (routeCodes row.route).length)
    (hbad : ∃ c ∈ routeCodes row.route, airportGet tbl c = none) :
    compute_route_metrics tbl row = none := by
  obtain ⟨c, hc, hnone⟩ := hbad
  obtain ⟨p, hp, hpc⟩ := mem_zip_of_mem c (routeCodes row.route) hlen hc
  have hloop : legsLoop tbl (0, 0, true)
      ((routeCodes row.route).zip (routeCodes row.route).tail) = none := by
    apply legsLoop_none_of_bad
    refine ⟨p, hp, ?_⟩
    rcases hpc with h | h
    · exact Or.inl (by rw [h]; exact hnone)
    · exact Or.inr (by rw [h]; exact hnone)
  unfold compute_route_metrics routeMetricsOfCodes
  rw [hloop]

/-- Witness for claim C3: the route "A-B" against the empty table. -/
theorem claim_C3_witness :
    2 ≤ (routeCodes "A-B").length
    ∧ ("A" ∈ routeCodes "A-B" ∧ airportGet ([] : AirportTable) "A" = none)
    ∧ compute_route_metrics ([] : AirportTable) ⟨"A-B", 1⟩ = none :=
  ⟨by decide, ⟨by decide, rfl⟩,
    claim_C3_unknown_code_kills_row ([] : AirportTable) ⟨"A-B", 1⟩ (by decide)
      ⟨"A", by decide, rfl⟩⟩

/-- Claim C10: a route string holding a single code (no dash, zero legs)
yields the defined result (0.0, "Domestic", 0.0) from compute_route_metrics,
whether or not the code resolves in the table. -/
theorem claim_C10_single_code_route (tbl : AirportTable) (row : RouteRow)
    (hlen : (routeCodes row.route).length = 1) :
    compute_route_metrics tbl row = some (0, "Domestic", 0) := by
  obtain ⟨c, hc⟩ : ∃ c, routeCodes row.route = [c] := by
    cases hcs : routeCodes row.route with
    | nil => rw [hcs] at hlen; simp at hlen
    | cons c rest =>
      rw [hcs] at hlen
      simp only [List.length_cons, Nat.add_left_eq_self] at hlen
      rw [List.length_eq_zero] at hlen
      exact ⟨c, by rw [hlen]⟩
  unfold compute_route_metrics routeMetricsOfCodes
  rw [hc]
  simp [legsLoop]

/-- Witness for claim C10: the dashless route "xyz" against the empty table. -/
theorem claim_C10_witness :
    (routeCodes "xyz").length = 1
    ∧ compute_route_metrics ([] : AirportTable) ⟨"xyz", 1⟩ = some (0, "Domestic", 0) :=
  ⟨by decide, claim_C10_single_code_route ([] : AirportTable) ⟨"xyz", 1⟩ (by decide)⟩

/-- Claim C1, behaviour at the failing input: in the {route} batch shape the
row function ignores the trips value entirely, so a row with 2 trips reports
the same (non-zero) emissions as the same route with 1 trip instead of twice
as much; the {from,to} shape does scale its emissions by trips. -/
theorem claim_C1_route_trips_not_scaled :
    (compute_route_metrics tblEq ⟨"A-B", 2⟩ = compute_route_metrics tblEq ⟨"A-B", 1⟩)
    ∧ ((compute_route_metrics tblEq ⟨"A-B", 2⟩).map (fun x => x.2.2) ≠
        (compute_route_metrics tblEq ⟨"A-B", 1⟩).map (fun x => (2 : ℝ) * x.2.2))
    ∧ ((compute_metrics tblEq ⟨"A", "B", 2⟩).map (fun x => x.2.2) =
        (compute_metrics tblEq ⟨"A", "B", 1⟩).map (fun x => (2 : ℝ) * x.2.2)) := by
  refine ⟨rfl, ?_, ?_⟩
  · have h1 : compute_route_metrics tblEq ⟨"A-B", 1⟩ =
        some (0 + haversine 0 0 0 90, "International",
          (0 + haversine 0 0 0 90 * INTERNATIONAL_FACTOR) / 1000) := rfl
    have h2 : compute_route_metrics tblEq ⟨"A-B", 2⟩ =
        some (0 + haversine 0 0 0 90, "International",
          (0 + haversine 0 0 0 90 * INTERNATIONAL_FACTOR) / 1000) := rfl
    rw [h1, h2]
    simp only [Option.map_some', ne_eq, Option.some_inj]
    intro heq
    rw [hav_0_0_0_90] at heq
    have hpi := Real.pi_pos
    norm_num [INTERNATIONAL_FACTOR] at heq
    nlinarith [heq]
  · have h1 : compute_metrics tblEq ⟨"A", "B", 1⟩ =
        some (haversine 0 0 0 90, "International",
          haversine 0 0 0 90 * INTERNATIONAL_FACTOR * ((1 : Int) : ℝ) / 1000) := rfl
    have h2 : compute_metrics tblEq ⟨"A", "B", 2⟩ =
        some (haversine 0 0 0 90, "International",
          haversine 0 0 0 90 * INTERNATIONAL_FACTOR * ((2 : Int) : ℝ) / 1000) := rfl
    rw [h1, h2]
    simp only [Option.map_some', Option.some_inj]
    push_cast
    ring

/-- Claim C2, behaviour at the failing inputs: a NaN trips value does default
to 1 and an absent trips column defaults to 1 in the route shape, but in the
from/to shape an absent trips column makes the whole upload fail (fillna is
called on the plain int 1), and a non-numeric trips value makes astype(int)
fail in both shapes instead of defaulting to 1. -/
theorem claim_C2_trips_default_divergence :
    tripsColFromTo false [] 1 =
      Except.error "AttributeError: int object has no attribute fillna"
    ∧ tripsColRoute false [] 1 = Except.ok [1]
    ∧ tripsColRoute true [Cell.blank] 1 = Except.ok [1]
    ∧ tripsColFromTo true [Cell.blank] 1 = Except.ok [1]
    ∧ tripsColRoute true [Cell.txt "abc"] 1 = Except.error "invalid literal for int: abc"
    ∧ tripsColFromTo true [Cell.txt "abc"] 1 = Except.error "invalid literal for int: abc" :=
  ⟨rfl, rfl, rfl, rfl, rfl, rfl⟩

/-- Claim C5: for a route whose codes all resolve, the route classification
is Domestic iff every leg has both endpoint countries equal to "IN"; the
single-query path classifies the same way on its one leg. -/
theorem claim_C5_domestic_iff (tbl : AirportTable) :
    (∀ (row : RouteRow) (km : ℝ) (tt : String) (em : ℝ),
        compute_route_metrics tbl row = some (km, tt, em) →
        (tt = "Domestic" ↔
          ∀ p ∈ (routeCodes row.route).zip (routeCodes row.route).tail,
            legResolvedDomestic tbl p))
    ∧ (∀ (fc tc : String) (d : ℝ) (tt : String) (em : ℝ),
        singleQuery tbl fc tc = SingleResult.ok d tt em →
        (tt = "Domestic" ↔
          ∃ a1 a2, airportGet tbl (normCode fc) = some a1
            ∧ airportGet tbl (normCode tc) = some a2
            ∧ a1.country = "IN" ∧ a2.country = "IN")) := by
  constructor
  · intro row km tt em h
    unfold compute_route_metrics routeMetricsOfCodes at h
    cases hL : legsLoop tbl (0, 0, true)
        ((routeCodes row.route).zip (routeCodes row.route).tail) with
    | none => rw [hL] at h; simp at h
    | some out =>
      rw [hL] at h
      obtain ⟨k2, e2, b2⟩ := out
      simp only [Option.some_inj, Prod.mk.injEq] at h
      obtain ⟨hkm, htt, hem⟩ := h
      have hb := legsLoop_allDom tbl _ _ _ hL
      simp only [true_and] at hb
      cases b2 with
      | true =>
        rw [if_pos rfl] at htt
        subst htt
        simp only [true_iff]
        exact hb.mp rfl
      | false =>
        rw [if_neg (by simp)] at htt
        subst htt
        constructor
        · intro hd
          exact absurd hd (by decide)
        · intro hall
          have : false = true := hb.mpr hall
          simp at this
  · intro fc tc d tt em h
    simp only [singleQuery] at h
    by_cases hblank : normCode fc = "" ∨ normCode tc = ""
    · rw [if_pos hblank] at h
      simp at h
    · rw [if_neg hblank] at h
      cases hf : airportGet tbl (normCode fc) with
      | none => rw [hf] at h; simp at h
      | some a1 =>
        cases ht : airportGet tbl (normCode tc) with
        | none => rw [hf, ht] at h; simp at h
        | some a2 =>
          rw [hf, ht] at h
          simp only [SingleResult.ok.injEq] at h
          obtain ⟨hd, htt, hem⟩ := h
          cases hld : legDom a1 a2 with
          | true =>
            rw [hld, if_pos rfl] at htt
            subst htt
            simp only [legDom, Bool.and_eq_true, beq_iff_eq] at hld
            simp only [true_iff]
            exact ⟨a1, a2, rfl, rfl, hld.1, hld.2⟩
          | false =>
            rw [hld, if_neg (by simp)] at htt
            subst htt
            constructor
            · intro hdd
              exact absurd hdd (by decide)
            · rintro ⟨b1, b2, hb1, hb2, hc1, hc2⟩
              cases Option.some_inj.mp hb1
              cases Option.some_inj.mp hb2
              have hld2 : ¬(a1.country = "IN" ∧ a2.country = "IN") := by
                intro hcc
                have hT : legDom a1 a2 = true := by
                  simp [legDom, hcc.1, hcc.2]
                rw [hld] at hT
                simp at hT
              exact absurd (And.intro hc1 hc2) hld2

/-- Witness for claim C5: the all-domestic route "P-Q" over tblP. -/
theorem claim_C5_witness :
    (("Domestic" : String) = "Domestic" ↔
      ∀ p ∈ (routeCodes "P-Q").zip (routeCodes "P-Q").tail, legResolvedDomestic tblP p) :=
  (claim_C5_domestic_iff tblP).1 ⟨"P-Q", 1⟩ (0 + haversine 0 0 0 0) "Domestic"
    ((0 + haversine 0 0 0 0 * DOMESTIC_FACTOR) / 1000) rfl

/-- Claim C4: a single query with one or both codes blank signals incomplete
input (taking precedence over unknown codes and performing no computation);
otherwise unknown codes are reported, naming exactly the unresolvable
code(s), one when one is unknown and both when both are; the two signals are
distinct constructors. -/
theorem claim_C4_single_query_error_signals (tbl : AirportTable) (fc tc : String) :
    ((normCode fc = "" ∨ normCode tc = "") →
      singleQuery tbl fc tc = SingleResult.incomplete)
    ∧ (normCode fc ≠ "" → normCode tc ≠ "" →
        airportGet tbl (normCode fc) = none → (airportGet tbl (normCode tc)).isSome →
        singleQuery tbl fc tc = SingleResult.unknownCodes [normCode fc])
    ∧ (normCode fc ≠ "" → normCode tc ≠ "" →
        (airportGet tbl (normCode fc)).isSome → airportGet tbl (normCode tc) = none →
        singleQuery tbl fc tc = SingleResult.unknownCodes [normCode tc])
    ∧ (normCode fc ≠ "" → normCode tc ≠ "" →
        airportGet tbl (normCode fc) = none → airportGet tbl (normCode tc) = none →
        singleQuery tbl fc tc = SingleResult.unknownCodes [normCode fc, normCode tc])
    ∧ (∀ ms, SingleResult.incomplete ≠ SingleResult.unknownCodes ms) := by
  refine ⟨?_, ?_, ?_, ?_, ?_⟩
  · intro hblank
    simp only [singleQuery]
    rw [if_pos hblank]
  · intro hf0 ht0 hf ht
    obtain ⟨a2, ha2⟩ := Option.isSome_iff_exists.mp ht
    simp only [singleQuery]
    rw [if_neg (by tauto), hf, ha2]
    simp [List.filter, hf, ha2]
  · intro hf0 ht0 hf ht
    obtain ⟨a1, ha1⟩ := Option.isSome_iff_exists.mp hf
    simp only [singleQuery]
    rw [if_neg (by tauto), ha1, ht]
    simp [List.filter, ha1, ht]
  · intro hf0 ht0 hf ht
    simp only [singleQuery]
    rw [if_neg (by tauto), hf, ht]
    simp [List.filter, hf, ht]
  · intro ms h
    exact SingleResult.noConfusion h

/-- Witness for claim C4 over tblW: blank input, one unknown code on either
side, two unknown codes, and blank taking precedence over an unknown code. -/
theorem claim_C4_witness :
    singleQuery tblW "" "BOM" = SingleResult.incomplete
    ∧ singleQuery tblW " xx " "BOM" = SingleResult.unknownCodes ["XX"]
    ∧ singleQuery tblW "DEL" "yy" = SingleResult.unknownCodes ["YY"]
    ∧ singleQuery tblW "xx" "yy" = SingleResult.unknownCodes ["XX", "YY"]
    ∧ singleQuery tblW "" "zz" = SingleResult.incomplete := by
  refine ⟨?_, ?_, ?_, ?_, ?_⟩
  · exact (claim_C4_single_query_error_signals tblW "" "BOM").1 (Or.inl rfl)
  · have h := (claim_C4_single_query_error_signals tblW " xx " "BOM").2.1
      (by decide) (by decide) rfl rfl
    have hn : normCode " xx " = "XX" := by decide
    rw [hn] at h
    exact h
  · have h := (claim_C4_single_query_error_signals tblW "DEL" "yy").2.2.1
      (by decide) (by decide) rfl rfl
    have hn : normCode "yy" = "YY" := by decide
    rw [hn] at h
    exact h
  · have h := (claim_C4_single_query_error_signals tblW "xx" "yy").2.2.2.1
      (by decide) (by decide) rfl rfl
    have hn1 : normCode "xx" = "XX" := by decide
    have hn2 : normCode "yy" = "YY" := by decide
    rw [hn1, hn2] at h
    exact h
  · exact (claim_C4_single_query_error_signals tblW "" "zz").1 (Or.inl rfl)

/-- Claim C8: every aggregate (total and per-classification emissions and
distance sums) equals the sum of the per-row values over exactly the rows
with non-null results, and a null-result row inserted anywhere contributes
nothing to any of the six aggregates. -/
theorem claim_C8_aggregate_sums :
    (∀ rows : List PRow,
      total_em rows = ((rows.filter (fun r => r.res.isSome)).filterMap emOf).sum
      ∧ dom_em rows = ((rows.filter (fun r => ttOf r = some "Domestic")).filterMap emOf).sum
      ∧ int_em rows = ((rows.filter (fun r => ttOf r = some "International")).filterMap emOf).sum
      ∧ total_dist rows = ((rows.filter (fun r => r.res.isSome)).filterMap distOf).sum
      ∧ dom_dist rows = ((rows.filter (fun r => ttOf r = some "Domestic")).filterMap distOf).sum
      ∧ int_dist rows = ((rows.filter (fun r => ttOf r = some "International")).filterMap distOf).sum)
    ∧ (∀ (pre post : List PRow) (r : PRow), r.res = none →
      total_em (pre ++ r :: post) = total_em (pre ++ post)
      ∧ dom_em (pre ++ r :: post) = dom_em (pre ++ post)
      ∧ int_em (pre ++ r :: post) = int_em (pre ++ post)
      ∧ total_dist (pre ++ r :: post) = total_dist (pre ++ post)
      ∧ dom_dist (pre ++ r :: post) = dom_dist (pre ++ post)
      ∧ int_dist (pre ++ r :: post) = int_dist (pre ++ post)) := by
  constructor
  · intro rows
    refine ⟨?_, ?_, ?_, ?_, ?_, ?_⟩
    · simp only [total_em]
      rw [pandasSum_map_eq emOf,
        filter_isSome_filterMap emOf (fun r2 h2 => by simp [emOf, h2]) rows]
    · simp only [dom_em]
      rw [pandasSum_map_eq emOf]
    · simp only [int_em]
      rw [pandasSum_map_eq emOf]
    · simp only [total_dist]
      rw [pandasSum_map_eq distOf,
        filter_isSome_filterMap distOf (fun r2 h2 => by simp [distOf, h2]) rows]
    · simp only [dom_dist]
      rw [pandasSum_map_eq distOf]
    · simp only [int_dist]
      rw [pandasSum_map_eq distOf]
  · intro pre post r hr
    have hkey : ∀ f : PRow → Option ℝ, f r = none →
        pandasSum ((pre ++ r :: post).map f) = pandasSum ((pre ++ post).map f) := by
      intro f hf
      rw [List.map_append, List.map_append, List.map_cons, pandasSum_append,
        pandasSum_append, hf]
      simp [pandasSum]
    have hfil : ∀ s : String,
        (pre ++ r :: post).filter (fun r2 => ttOf r2 = some s) =
          (pre ++ post).filter (fun r2 => ttOf r2 = some s) := by
      intro s
      rw [List.filter_append, List.filter_append, List.filter_cons]
      have hno : ¬ (ttOf r = some s) := by simp [ttOf, hr]
      simp [hno]
    refine ⟨?_, ?_, ?_, ?_, ?_, ?_⟩
    · exact hkey emOf (by simp [emOf, hr])
    · simp only [dom_em]
      rw [hfil "Domestic"]
    · simp only [int_em]
      rw [hfil "International"]
    · exact hkey distOf (by simp [distOf, hr])
    · simp only [dom_dist]
      rw [hfil "Domestic"]
    · simp only [int_dist]
      rw [hfil "International"]

/-- Witness for claim C8: a single null-result row contributes nothing. -/
theorem claim_C8_witness :
    total_em [⟨"R", 1, none⟩] = total_em []
    ∧ dom_em [⟨"R", 1, none⟩] = dom_em []
    ∧ int_em [⟨"R", 1, none⟩] = int_em []
    ∧ total_dist [⟨"R", 1, none⟩] = total_dist []
    ∧ dom_dist [⟨"R", 1, none⟩] = dom_dist []
    ∧ int_dist [⟨"R", 1, none⟩] = int_dist [] :=
  claim_C8_aggregate_sums.2 [] [] ⟨"R", 1, none⟩ rfl

/-- Claim C9, counterexample: for the batch [A-B, A-B, A-C] over tblEq the
route "A-B" has the maximum total (aggregated) emissions with ties broken by
first occurrence, but the highlighted insight route comes from a per-row
idxmax and names "A-C". -/
theorem claim_C9_cex :
    insightRoute (processRouteRows tblEq [⟨"A-B", 1⟩, ⟨"A-B", 1⟩, ⟨"A-C", 1⟩]) = some "A-C"
    ∧ specTopRoute (processRouteRows tblEq [⟨"A-B", 1⟩, ⟨"A-B", 1⟩, ⟨"A-C", 1⟩]) = some "A-B"
    ∧ ("A-C" : String) ≠ "A-B" := by
  have hAB : compute_route_metrics tblEq ⟨"A-B", (1 : Int)⟩ =
      some (0 + haversine 0 0 0 90, "International",
        (0 + haversine 0 0 0 90 * INTERNATIONAL_FACTOR) / 1000) := rfl
  have hAC : compute_route_metrics tblEq ⟨"A-C", (1 : Int)⟩ =
      some (0 + haversine 0 0 0 180, "International",
        (0 + haversine 0 0 0 180 * INTERNATIONAL_FACTOR) / 1000) := rfl
  set e1 : ℝ := (0 + haversine 0 0 0 90 * INTERNATIONAL_FACTOR) / 1000 with he1
  set e2 : ℝ := (0 + haversine 0 0 0 180 * INTERNATIONAL_FACTOR) / 1000 with he2
  have hIF : (0 : ℝ) < INTERNATIONAL_FACTOR := by norm_num [INTERNATIONAL_FACTOR]
  have hpi := Real.pi_pos
  have h12 : e1 < e2 := by
    rw [he1, he2, hav_0_0_0_90, hav_0_0_0_180]
    nlinarith [mul_pos hpi hIF]
  have hsum : e1 + (e1 + 0) = e2 + 0 := by
    rw [he1, he2, hav_0_0_0_90, hav_0_0_0_180]
    ring
  have hrows : processRouteRows tblEq [⟨"A-B", 1⟩, ⟨"A-B", 1⟩, ⟨"A-C", 1⟩] =
      [⟨"A-B", 1, some (0 + haversine 0 0 0 90, "International", e1)⟩,
       ⟨"A-B", 1, some (0 + haversine 0 0 0 90, "International", e1)⟩,
       ⟨"A-C", 1, some (0 + haversine 0 0 0 180, "International", e2)⟩] := by
    unfold processRouteRows
    simp only [List.map_cons, List.map_nil]
    rw [hAB, hAC]
  rw [hrows]
  refine ⟨?_, ?_, by decide⟩
  · simp only [insightRoute, idxmax, List.map_cons, List.map_nil, emOf]
    simp only [idxmaxGo, if_neg (lt_irrefl e1), if_pos h12]
    rfl
  · simp only [specTopRoute, List.map_cons, List.map_nil]
    have hkeys : firstKeysGo ["A-B", "A-B", "A-C"] [] = ["A-B", "A-C"] := by decide
    rw [hkeys]
    have ht1 : routeTotal
        [⟨"A-B", 1, some (0 + haversine 0 0 0 90, "International", e1)⟩,
         ⟨"A-B", 1, some (0 + haversine 0 0 0 90, "International", e1)⟩,
         ⟨"A-C", 1, some (0 + haversine 0 0 0 180, "International", e2)⟩] "A-B" =
        e1 + (e1 + 0) := by
      simp [routeTotal, List.filter, pandasSum, emOf]
    have ht2 : routeTotal
        [⟨"A-B", 1, some (0 + haversine 0 0 0 90, "International", e1)⟩,
         ⟨"A-B", 1, some (0 + haversine 0 0 0 90, "International", e1)⟩,
         ⟨"A-C", 1, some (0 + haversine 0 0 0 180, "International", e2)⟩] "A-C" =
        e2 + 0 := by
      simp [routeTotal, List.filter, pandasSum, emOf]
    simp only [List.map_cons, List.map_nil, ht1, ht2]
    simp only [argmaxFirst]
    rw [if_neg (by rw [hsum]; exact lt_irrefl _)]
    rfl

/-- Claim C9, amended: the highlighted route is taken from the row found by
idxmax over the per-row emissions column: an index holding the maximum
per-row (not per-route-aggregated) emissions value, strictly greater than
every earlier non-null value (so ties keep the first row), with null rows
skipped; insightRoute is exactly that row's route string. -/
theorem claim_C9_amended_idxmax :
    (∀ (xs : List (Option ℝ)) (i : Nat), idxmax xs = some i →
      ∃ v, xs.get? i = some (some v)
        ∧ (∀ l w, xs.get? l = some (some w) → w ≤ v)
        ∧ (∀ l, l < i → ∀ w, xs.get? l = some (some w) → w < v))
    ∧ (∀ rows : List PRow, insightRoute rows =
        (idxmax (rows.map emOf)).bind (fun k => (rows.get? k).map (fun r => r.route))) := by
  constructor
  · intro xs i h
    obtain ⟨j, v, hk, hj, hbound, hstrict⟩ := (idxmaxGo_spec xs 0 none i h).1 rfl
    have hij : i = j := by omega
    subst hij
    exact ⟨v, hj, hbound, hstrict⟩
  · intro rows
    rfl

/-- Witness for the amended claim C9 on the one-row column [some 1]. -/
theorem claim_C9_amended_witness :
    ∃ v, [some (1 : ℝ)].get? 0 = some (some v)
      ∧ (∀ l w, [some (1 : ℝ)].get? l = some (some w) → w ≤ v)
      ∧ (∀ l, l < 0 → ∀ w, [some (1 : ℝ)].get? l = some (some w) → w < v) :=
  claim_C9_amended_idxmax.1 [some 1] 0 rfl
